import Mathlib

/-!
Verification development for the AtlassianMCP server.

The definitions below are shallow embeddings of the TypeScript source:
* the Accept-header negotiator of src/server.ts (parseAccept, wantsSse);
* the cursor-following pagination aggregator and tool handlers of the
  variant server file (handleSearchByLabelInSpace, handleListSpaces and the
  tools/call dispatcher), whose loop also appears verbatim in
  handleSearchPages and handleListPagesInSpace;
* the streamable-HTTP request handler of src/server.ts (message gate,
  stream path, single-JSON path, session allocation);
* the single-fetch variant of handleSearchByLabelInSpace from the earlier
  server file.

Modelling conventions, stated once here:
* Strings are processed as lists of characters so that every definition is
  kernel-computable; the char-level helpers model the JavaScript string
  methods (split, trim, toLowerCase, startsWith) directly.
* JavaScript numbers that the claims quantify over (limits, budgets, ids,
  HTTP statuses) are modelled as Nat; quality values are modelled as exact
  rationals, abstracting IEEE double rounding, which is faithful whenever
  the compared decimal literals are distinguishable as rationals.
* JavaScript string falsiness (undefined or the empty string) is modelled
  by Option String together with explicit emptiness tests.
* decodeURIComponent is modelled as ASCII percent-decoding; multi-byte
  UTF-8 sequences and the exception on malformed input are not exercised
  by any claim.
* The upstream wiki service is an external collaborator, modelled as a
  function from the sent cursor to a fetch outcome; the construction of
  the query string (cql, limit, start) is therefore not observable and the
  items of a page stand for the already-mapped result records.
* Presentation output (adaptive cards, nextUrl and prevUrl fields) and the
  process-global side effects (logging, the sessions Set, listening) are
  not modelled; no claim mentions them.
-/

/-- Split a character list at every occurrence of the separator, keeping
empty segments, like the JavaScript single-character split. -/
def jsSplit (sep : Char) : List Char → List (List Char)
  | [] => [[]]
  | c :: rest =>
    let r := jsSplit sep rest
    if c = sep then [] :: r
    else match r with
      | [] => [[c]]
      | g :: gs => (c :: g) :: gs

/-- Whitespace trim on both ends, modelling the JavaScript trim. -/
def jsTrim (l : List Char) : List Char :=
  ((l.dropWhile (fun c => c.isWhitespace)).reverse.dropWhile
    (fun c => c.isWhitespace)).reverse

/-- Lowercasing, modelling toLowerCase on the ASCII media types in play. -/
def jsLower (l : List Char) : List Char := l.map Char.toLower

/-- Decimal digit run to a natural number, most significant digit first. -/
def digitsToNat (l : List Char) : Nat :=
  l.foldl (fun a c => 10 * a + (c.toNat - '0'.toNat)) 0

/-- Exact rational value in an unreduced numerator-over-denominator form,
used for Accept-header qualities; every constructor keeps the denominator
positive, so cross-multiplication comparison below is exact. -/
structure QVal where
  num : Int
  den : Nat
  deriving DecidableEq

/-- Exact strict order on qualities by cross multiplication. -/
def QVal.lt (a b : QVal) : Bool := a.num * (b.den : Int) < b.num * (a.den : Int)

/-- The quality one, the parseAccept default. -/
def qOne : QVal := ⟨1, 1⟩

/-- The quality zero, the default for an absent event-stream entry. -/
def qZero : QVal := ⟨0, 1⟩

/-- Model of the JavaScript parseFloat used by parseAccept: skip leading
whitespace, optional sign, digits with an optional fraction and an optional
exponent; returns none when no numeric prefix exists (NaN).  The Infinity
literal and IEEE rounding are abstracted away (see the header). -/
def jsParseFloat (s : List Char) : Option QVal :=
  let cs := s.dropWhile (fun c => c.isWhitespace)
  let neg : Bool := match cs with
    | '-' :: _ => true
    | _ => false
  let cs1 := match cs with
    | '-' :: r => r
    | '+' :: r => r
    | r => r
  let ip := cs1.takeWhile (fun c => c.isDigit)
  let rest := cs1.drop ip.length
  let fp := match rest with
    | '.' :: r => r.takeWhile (fun c => c.isDigit)
    | _ => []
  let rest2 := match rest with
    | '.' :: r => r.drop fp.length
    | r => r
  if ip.isEmpty ∧ fp.isEmpty then none
  else
    let mantNum : Int := (digitsToNat ip * 10 ^ fp.length + digitsToNat fp : Nat)
    let mantNum := if neg then -mantNum else mantNum
    let mantDen : Nat := 10 ^ fp.length
    let expo : Int := match rest2 with
      | 'e' :: r | 'E' :: r =>
        let es : Int := match r with
          | '-' :: _ => -1
          | _ => 1
        let r2 := match r with
          | '-' :: rr => rr
          | '+' :: rr => rr
          | rr => rr
        let ed := r2.takeWhile (fun c => c.isDigit)
        if ed.isEmpty then 0 else es * (digitsToNat ed : Int)
      | _ => 0
    some (match expo with
      | Int.ofNat e => ⟨mantNum * (10 ^ e : Nat), mantDen⟩
      | Int.negSucc e => ⟨mantNum, mantDen * 10 ^ (e + 1)⟩)

/-- One parsed Accept-header entry: lowercased media type and quality. -/
structure AcceptEntry where
  type : List Char
  q : QVal

/-- Embedding of parseAccept from src/server.ts lines 100 to 105: split on
commas, trim, split each entry on semicolons, read an optional q parameter
with parseFloat, defaulting to 1 and mapping NaN back to 1. -/
def parseAccept (h : String) : List AcceptEntry :=
  ((jsSplit ',' h.toList).map jsTrim).map (fun item =>
    let parts := (jsSplit ';' item).map jsTrim
    let t := parts.headD []
    let q : QVal := match parts.tail.find? (fun p => "q=".toList.isPrefixOf p) with
      | some qp => (jsParseFloat ((jsSplit '=' qp).getD 1 [])).getD qOne
      | none => qOne
    { type := jsLower t, q := q })

/-- Quality of a media type in a header, with the given absent-default,
embedding the two find-with-default lookups of src/server.ts. -/
def qualityOf (h : String) (t : String) (d : QVal) : QVal :=
  (((parseAccept h).find? (fun a => a.type = t.toList)).map AcceptEntry.q).getD d

/-- Event-stream quality, defaulting to 0 (src/server.ts line 107). -/
def sseQuality (h : String) : QVal := qualityOf h "text/event-stream" qZero

/-- JSON quality, defaulting to 1 (src/server.ts line 108). -/
def jsonQuality (h : String) : QVal := qualityOf h "application/json" qOne

/-- Transport decision of src/server.ts line 109: stream iff the
event-stream quality strictly exceeds the JSON quality. -/
def wantsSse (h : String) : Bool := QVal.lt (jsonQuality h) (sseQuality h)

/-- Decision on an optional Accept header; an absent header is read as the
empty string (src/server.ts line 74). -/
def acceptDecision (h : Option String) : Bool := wantsSse (h.getD "")

/-- Hex digit value for percent decoding, none for a non-hex character. -/
def hexDigitVal (c : Char) : Option Nat :=
  if c.isDigit then some (c.toNat - '0'.toNat)
  else if 'a' ≤ c ∧ c ≤ 'f' then some (c.toNat - 'a'.toNat + 10)
  else if 'A' ≤ c ∧ c ≤ 'F' then some (c.toNat - 'A'.toNat + 10)
  else none

/-- ASCII percent decoding, the model of decodeURIComponent (see header). -/
def percentDecode : List Char → List Char
  | '%' :: a :: b :: rest =>
    (match hexDigitVal a, hexDigitVal b with
      | some x, some y => Char.ofNat (16 * x + y) :: percentDecode rest
      | _, _ => '%' :: percentDecode (a :: b :: rest))
  | c :: rest => c :: percentDecode rest
  | [] => []

/-- Model of the first match of the cursor query-parameter pattern used by
the aggregator: a question mark or ampersand, the literal cursor= and then
at least one character other than an ampersand; the engine advances when
the captured run would be empty, exactly like the regular expression. -/
def findCursorParam : List Char → Option (List Char)
  | [] => none
  | c :: rest =>
    if (c = '?' ∨ c = '&') ∧ "cursor=".toList.isPrefixOf rest then
      let run := (rest.drop 7).takeWhile (fun x => x ≠ '&')
      if run.isEmpty then findCursorParam rest else some run
    else findCursorParam rest

/-- Caller-facing cursor extracted from an optional link URL: none when the
link is absent or the pattern does not match, otherwise the percent-decoded
capture.  This is the expression computing nextCursor and prevCursor in the
pagination block of each aggregating handler. -/
def cursorFromLink : Option String → Option String
  | none => none
  | some s => (findCursorParam s.toList).map (fun run => (percentDecode run).asString)

/-- In-loop cursor extraction: the same expression with an empty-string
fallback, as assigned to the nextCursor loop variable. -/
def extractCursor (l : Option String) : String := (cursorFromLink l).getD ""

/-- One upstream page as consumed by the handlers: the already-mapped items
plus the metadata fields the pagination block reads. -/
structure PageData (α : Type) where
  items : List α
  start? : Option Nat := none
  limit? : Option Nat := none
  size? : Option Nat := none
  totalSize? : Option Nat := none
  linksNext : Option String := none
  linksPrev : Option String := none
  deriving DecidableEq

/-- Outcome of one upstream fetch: a non-success status with body text and
status text, or a parsed page. -/
inductive FetchResult (α : Type) where
  | fail (status : Nat) (body : String) (statusText : String)
  | page (d : PageData α)
  deriving DecidableEq

/-- Outcome of the aggregation loop: an aborting upstream failure, or the
final loop state (accumulated items, last extracted cursor, the retained
first page, and the page counter). -/
inductive AggOut (α : Type) where
  | fail (status : Nat) (body : String) (statusText : String)
  | done (collected : List α) (lastCursor : String) (firstPage : Option (PageData α)) (pages : Nat)
  deriving DecidableEq

/-- Embedding of the do-while aggregation loop shared by the aggregating
handlers (variant server file, handleSearchByLabelInSpace lines 181 to 211;
the identical loop is inlined in handleSearchPages and
handleListPagesInSpace).  The upstream collaborator is a function from the
sent cursor to a fetch outcome; the loop keeps the first page, appends each
page of items, extracts the next cursor from the next link, and continues
while auto-pagination is on, a cursor was extracted, the budget (when
nonzero) is not yet met, and fewer than 20 pages were fetched.  The fuel
argument only realizes the bounded recursion: every run below starts with
fuel 20 and page counter 0, and the page-counter guard stops the loop
before fuel can run out. -/
def aggLoop (up : String → FetchResult α) (ap : Bool) (mx : Nat) :
    Nat → List α → String → Option (PageData α) → Nat → AggOut α
  | 0, acc, cur, fp, pc => .done acc cur fp pc
  | fuel + 1, acc, cur, fp, pc =>
    match up cur with
    | .fail st body stx => .fail st body stx
    | .page d =>
      let fp' := some (fp.getD d)
      let acc' := acc ++ d.items
      let nc := extractCursor d.linksNext
      if ap = true ∧ nc ≠ "" ∧ (mx = 0 ∨ acc'.length < mx) ∧ pc + 1 < 20 then
        aggLoop up ap mx fuel acc' nc fp' (pc + 1)
      else
        .done acc' nc fp' (pc + 1)

/-- The three Confluence configuration values read from the environment. -/
structure Env where
  baseUrl : Option String
  email : Option String
  token : Option String
  deriving DecidableEq

/-- Credential guard of every tool handler: any of the three values absent
or empty (JavaScript falsiness) blocks the call. -/
def credsMissing (e : Env) : Bool :=
  e.baseUrl.getD "" = "" || e.email.getD "" = "" || e.token.getD "" = ""

/-- The fixed MISSING_CREDENTIALS message of the handlers. -/
def credsMsg : String :=
  "Missing Confluence credentials. Set CONFLUENCE_BASE_URL, CONFLUENCE_EMAIL, and CONFLUENCE_API_TOKEN."

/-- Tool-call arguments as read by the aggregating handlers; absent fields
model absent JSON properties. -/
structure SearchParams where
  label : Option String := none
  spaceKey : Option String := none
  limit : Option Nat := none
  start : Option Nat := none
  cursor : Option String := none
  maxResults : Option Nat := none
  autoPaginate : Option Bool := none
  deriving DecidableEq

/-- JavaScript trim on strings. -/
def trimS (s : String) : String := (jsTrim s.toList).asString

/-- Effective page-size limit: default 50 on absent or zero, clamped to the
interval from 1 to 100. -/
def effLimit (p : SearchParams) : Nat :=
  let n0 : Nat := match p.limit with
    | none => 50
    | some 0 => 50
    | some n => n
  min (max n0 1) 100

/-- Effective result budget: the maxResults argument, 0 when absent. -/
def effMax (p : SearchParams) : Nat := p.maxResults.getD 0

/-- Effective auto-pagination flag: the source computes
autoPaginate-not-explicitly-false OR a positive budget, so an explicit
false is overridden by a nonzero maxResults. -/
def effAuto (p : SearchParams) : Bool :=
  decide (p.autoPaginate ≠ some false) || decide (0 < effMax p)

/-- Trimmed label argument. -/
def effLabel (p : SearchParams) : String := trimS (p.label.getD "")

/-- Trimmed spaceKey argument. -/
def effSpaceKey (p : SearchParams) : String := trimS (p.spaceKey.getD "")

/-- Trimmed starting cursor argument. -/
def initialCursor (p : SearchParams) : String := trimS (p.cursor.getD "")

/-- Pagination metadata returned by the aggregating handlers. -/
structure PageMeta where
  start : Option Nat
  limit : Nat
  size : Nat
  totalSize : Option Nat
  nextCursor : Option String
  prevCursor : Option String
  deriving DecidableEq

/-- Result of an aggregating tool handler: a structured error object
(carried inside a successful JSON-RPC result) or the item list with
pagination metadata; the page counter of the loop is exposed as the third
field so that claims about the number of fetched pages can be stated. -/
inductive ToolOut (α : Type) where
  | err (code : String) (message : String) (missing : List String)
  | ok (results : List α) (pagination : PageMeta) (pagesFetched : Nat)
  deriving DecidableEq

/-- Pages-fetched projection, none on an error result. -/
def ToolOut.pages? : ToolOut α → Option Nat
  | .ok _ _ p => some p
  | .err _ _ _ => none

/-- Returned-item-count projection, none on an error result. -/
def ToolOut.len? : ToolOut α → Option Nat
  | .ok r _ _ => some r.length
  | .err _ _ _ => none

/-- Comma-space join of the missing-input field names. -/
def joinComma : List String → String
  | [] => ""
  | [s] => s
  | s :: rest => s ++ ", " ++ joinComma rest

/-- Decimal digit character. -/
def digitChar (d : Nat) : Char := Char.ofNat ('0'.toNat + d)

/-- Decimal rendering of a natural number (kernel-computable model of the
JavaScript template interpolation of a number). -/
def natDigits : Nat → Nat → List Char
  | 0, _ => []
  | fuel + 1, n => if n < 10 then [digitChar n] else natDigits fuel (n / 10) ++ [digitChar (n % 10)]

/-- Decimal string of a natural number. -/
def natRepr (n : Nat) : String := (natDigits (n + 1) n).asString

/-- The UPSTREAM_ERROR message: Confluence API status colon body, falling
back to the status text on an empty body. -/
def upstreamErrMsg (st : Nat) (body stx : String) : String :=
  "Confluence API " ++ natRepr st ++ ": " ++ (if body = "" then stx else body)

/-- Embedding of handleSearchByLabelInSpace from the variant server file
(lines 147 to 242): credential guard, argument parsing, missing-input
guard, the aggregation loop, budget truncation, and the pagination block.
The pagination block reads the retained FIRST page (firstPage in the
source), falling back to a synthesized page when no page was kept.
Adaptive-card rendering and the nextUrl and prevUrl fields are presentation
and are not modelled. -/
def handleSearchByLabelInSpace (env : Env) (up : String → FetchResult α) (p : SearchParams) :
    ToolOut α :=
  if credsMissing env = true then .err "MISSING_CREDENTIALS" credsMsg []
  else
    let label := effLabel p
    let spaceKey := effSpaceKey p
    let mx := effMax p
    let ap := effAuto p
    if label = "" ∨ spaceKey = "" then
      let missing := (if label = "" then ["label"] else []) ++
        (if spaceKey = "" then ["spaceKey"] else [])
      .err "MISSING_INPUT" ("Missing required input(s): " ++ joinComma missing) missing
    else
      match aggLoop up ap mx 20 [] (initialCursor p) none 0 with
      | .fail st body stx => .err "UPSTREAM_ERROR" (upstreamErrMsg st body stx) []
      | .done collected _ fp pc =>
        let results := if 0 < mx then collected.take mx else collected
        let d := fp.getD
          { items := [], start? := some (p.start.getD 0), limit? := some (effLimit p),
            size? := some results.length }
        .ok results
          { start := d.start?
            limit := d.limit?.getD (effLimit p)
            size := d.size?.getD results.length
            totalSize := d.totalSize?
            nextCursor := cursorFromLink d.linksNext
            prevCursor := cursorFromLink d.linksPrev } pc

/-- Pagination metadata returned by handleListSpaces: the raw links object
is passed through instead of extracted cursors. -/
structure SpacesMeta where
  start : Option Nat
  limit : Nat
  size : Nat
  linksNext : Option String
  linksPrev : Option String
  deriving DecidableEq

/-- Result of the single-fetch handleListSpaces. -/
inductive SpacesOut (α : Type) where
  | err (code : String) (message : String)
  | ok (results : List α) (pagination : SpacesMeta)
  deriving DecidableEq

/-- Embedding of handleListSpaces from the variant server file (lines 245
to 289): credential guard, then one upstream fetch whose outcome is the
fetched argument, then mapping and pagination passthrough. -/
def handleListSpaces (env : Env) (fetched : FetchResult α) (p : SearchParams) : SpacesOut α :=
  if credsMissing env = true then .err "MISSING_CREDENTIALS" credsMsg
  else
    match fetched with
    | .fail st body stx => .err "UPSTREAM_ERROR" (upstreamErrMsg st body stx)
    | .page d =>
      .ok d.items
        { start := d.start?
          limit := d.limit?.getD (effLimit p)
          size := d.size?.getD d.items.length
          linksNext := d.linksNext
          linksPrev := d.linksPrev }

/-- Result of the earlier single-fetch handleSearchByLabelInSpace variant,
which returns plain results without pagination metadata. -/
inductive SimpleOut (α : Type) where
  | err (code : String) (message : String) (missing : List String)
  | ok (results : List α)
  deriving DecidableEq

/-- Embedding of handleSearchByLabelInSpace from the earlier server file
(lines 125 to 176): credential guard, missing-input guard, one upstream
fetch, upstream-error propagation, plain results. -/
def handleSearchByLabelInSpaceV1 (env : Env) (fetched : FetchResult α) (p : SearchParams) :
    SimpleOut α :=
  if credsMissing env = true then .err "MISSING_CREDENTIALS" credsMsg []
  else
    let label := effLabel p
    let spaceKey := effSpaceKey p
    if label = "" ∨ spaceKey = "" then
      let missing := (if label = "" then ["label"] else []) ++
        (if spaceKey = "" then ["spaceKey"] else [])
      .err "MISSING_INPUT" ("Missing required input(s): " ++ joinComma missing) missing
    else
      match fetched with
      | .fail st body stx => .err "UPSTREAM_ERROR" (upstreamErrMsg st body stx) []
      | .page d => .ok d.items

/-- JavaScript template rendering of a possibly-undefined string. -/
def jsStr : Option String → String
  | some s => s
  | none => "undefined"

/-- Method normalization of the variant server file: lowercase, then every
dot and underscore becomes a slash. -/
def normalizeMethod (m : String) : String :=
  ((m.toList.map Char.toLower).map (fun c => if c = '.' ∨ c = '_' then '/' else c)).asString

/-- JSON-RPC level output of the variant server file handler: constructors
mirror the branches of the handler; result envelopes are successful
responses carrying the tool output in the result field, rpcError is a
JSON-RPC error response. -/
inductive Rpc3Out (α : Type) where
  | initFallback (id : Option Nat)
  | initRes (id : Option Nat)
  | ack (id : Option Nat)
  | emptyOk
  | toolsListRes (id : Option Nat)
  | pingRes (id : Option Nat)
  | result (id : Option Nat) (out : ToolOut α)
  | rpcError (id : Option Nat) (code : Int) (message : String)
  deriving DecidableEq

/-- Embedding of the tools/call switch of the variant server file (lines
658 to 686).  The searchByLabelInSpace branch invokes the embedded handler;
the remaining known tools are embedded elsewhere or share its structure, so
their awaited outcomes enter as parameters (no claim depends on them); an
unknown or absent name falls to the default branch, a JSON-RPC error built
from the supplied name. -/
def toolsCall3 (env : Env) (up : String → FetchResult α) (p : SearchParams)
    (outSearch outListSpaces outListPages outListLabels outDescribe : ToolOut α)
    (id : Option Nat) (name : Option String) : Rpc3Out α :=
  if name = some "search" ∨ name = some "searchPages" then .result id outSearch
  else if name = some "searchByLabelInSpace" then
    .result id (handleSearchByLabelInSpace env up p)
  else if name = some "listSpaces" then .result id outListSpaces
  else if name = some "listPagesInSpace" then .result id outListPages
  else if name = some "listLabels" then .result id outListLabels
  else if name = some "describeTools" then .result id outDescribe
  else .rpcError id (-32601) ("Tool not found: " ++ jsStr name)

/-- Embedding of the JSON-RPC method dispatch of the variant server file
(lines 599 to 693): a missing method falls back to an initialize-shaped
result, then the normalized method selects the branch, ending in the
unknown-method error. -/
def mcp3Handler (env : Env) (up : String → FetchResult α) (p : SearchParams)
    (outSearch outListSpaces outListPages outListLabels outDescribe : ToolOut α)
    (id : Option Nat) (method? : Option String) (name : Option String) : Rpc3Out α :=
  let method := method?.getD ""
  let norm := normalizeMethod method
  if method = "" then .initFallback id
  else if norm = "initialize" ∨ norm = "mcp/initialize" then .initRes id
  else if norm = "notifications/initialized" ∨ norm = "mcp/notifications/initialized" then
    (match id with
      | none => .emptyOk
      | some i => .ack (some i))
  else if norm = "tools/list" ∨ norm = "mcp/tools/list" then .toolsListRes id
  else if norm = "tools/call" ∨ norm = "mcp/tools/call" ∨ norm = "tool/call" then
    toolsCall3 env up p outSearch outListSpaces outListPages outListLabels outDescribe id name
  else if norm = "ping" ∨ norm = "mcp/ping" then .pingRes id
  else .rpcError id (-32601) ("Unknown method: " ++ (if method = "" then "(empty)" else method))

/-- Ceiling division, used to state the page-count bound of C3. -/
def cdiv (m l : Nat) : Nat := (m + l - 1) / l

/-- One incoming JSON-RPC message as read by the streamable-HTTP handler of
src/server.ts: the envelope fields plus the two tools/call parameters the
synchronous handler reads.  Absent fields model absent JSON properties; a
numeric id models the JSON-RPC id. -/
structure RpcMsg where
  id? : Option Nat := none
  method? : Option String := none
  toolName? : Option String := none
  textArg? : Option String := none
  deriving DecidableEq

/-- One response body written by the src/server.ts handler.  The initialize
and tools/list results are constant apart from the echoed request id, so
the constructors only carry the id: in particular no constructor carries a
session id, which is the formal content of the no-echo part of C7. -/
inductive RpcResp where
  | initRes (id : Option Nat)
  | toolsListRes (id : Option Nat)
  | helpRes (id : Option Nat)
  | echoRes (id : Option Nat) (text : String)
  | deferRes (id : Option Nat) (tool : String)
  | toolNotFound (id : Option Nat) (message : String)
  | methodNotFound (id : Option Nat) (message : String)
  | invalidReq (message : String)
  deriving DecidableEq

/-- Rendering of a JSON-RPC id inside a stream event id string. -/
def idStr : Option Nat → String
  | some n => natRepr n
  | none => "undefined"

/-- JavaScript truthiness of an id value. -/
def idTruthy : Option Nat → Bool
  | some n => n != 0
  | none => false

/-- JavaScript truthiness of a method value. -/
def methodTruthy : Option String → Bool
  | some s => s != ""
  | none => false

/-- The Mcp-Session-Id request header after the JavaScript truthiness
check: an empty header value counts as absent. -/
def hdrTruthy : Option String → Option String
  | some s => if s = "" then none else some s
  | none => none

/-- Session id for an initialize message: the (truthy) request header wins,
otherwise one fresh generator value is consumed (cryptoRandomId). -/
def freshSid (hdrT : Option String) (g : Nat → String) (ctr : Nat) : String × Nat :=
  match hdrT with
  | some s => (s, ctr)
  | none => (g ctr, ctr + 1)

/-- Session id for a non-initialize stream event: assigned session first,
then the header, then a fresh generator value. -/
def resolveSid (asg : String) (hdrT : Option String) (g : Nat → String) (ctr : Nat) :
    String × Nat :=
  if asg = "" then freshSid hdrT g ctr else (asg, ctr)

/-- Embedding of handleToolsCall from src/server.ts lines 299 to 349: help
and echo answer synchronously, three Confluence tools defer to the async
path (modelled by the defer marker; their asynchronous replacement bodies
are outside this embedding), anything else is the tool-not-found error
built from the supplied name. -/
def handleToolsCallS (m : RpcMsg) : RpcResp :=
  if m.toolName? = some "help" then .helpRes m.id?
  else if m.toolName? = some "echo" then .echoRes m.id? (m.textArg?.getD "{}")
  else if m.toolName? = some "confluence.listSpaces" then .deferRes m.id? "confluence.listSpaces"
  else if m.toolName? = some "confluence.summarizePage" then
    .deferRes m.id? "confluence.summarizePage"
  else if m.toolName? = some "confluence.createPage" then .deferRes m.id? "confluence.createPage"
  else .toolNotFound m.id? ("Tool not found: " ++ jsStr m.toolName?)

/-- Embedding of the stream-path message loop of src/server.ts lines 352
to 401, threading the generator counter, the assigned session (empty string
while unassigned, as in the source) and the written events, each an event
id string paired with a body. -/
def ssePathGo (g : Nat → String) (hdrT : Option String) :
    List RpcMsg → Nat → String → List (String × RpcResp) →
      Nat × String × List (String × RpcResp)
  | [], ctr, asg, evs => (ctr, asg, evs)
  | m :: rest, ctr, asg, evs =>
    if m.method? = some "initialize" then
      let s := freshSid hdrT g ctr
      let asg' := if asg = "" then s.1 else asg
      ssePathGo g hdrT rest s.2 asg'
        (evs ++ [(s.1 ++ ":init:" ++ idStr m.id?, .initRes m.id?)])
    else if m.method? = some "tools/list" then
      let s := resolveSid asg hdrT g ctr
      ssePathGo g hdrT rest s.2 asg
        (evs ++ [(s.1 ++ ":tools-list:" ++ idStr m.id?, .toolsListRes m.id?)])
    else if m.method? = some "tools/call" then
      let s := resolveSid asg hdrT g ctr
      ssePathGo g hdrT rest s.2 asg
        (evs ++ [(s.1 ++ ":tools-call:" ++ idStr m.id?, handleToolsCallS m)])
    else if idTruthy m.id? = true ∧ methodTruthy m.method? = true then
      let s := resolveSid asg hdrT g ctr
      ssePathGo g hdrT rest s.2 asg
        (evs ++ [(s.1 ++ ":err:" ++ idStr m.id?,
          .methodNotFound m.id? ("Method not found: " ++ jsStr m.method?))])
    else ssePathGo g hdrT rest ctr asg evs

/-- HTTP-level outcome of one streamable-HTTP request: status, the
Mcp-Session-Id response header, and the ordered response bodies, each
paired with its stream event id (none on the single-JSON path). -/
structure HandlerOut where
  status : Nat
  header : Option String
  responses : List (Option String × RpcResp)
  aborted : Bool
  deriving DecidableEq

/-- Stream path of the src/server.ts handler: run the message loop from a
zero counter, no assigned session and no events.  Fidelity to the source
(lines 352 to 401): sseHeaders flushes the response head BEFORE the event
loop, so the head carries no Mcp-Session-Id; when the post-loop
setHeader of the assigned session runs (assignedSession truthy, that is
whenever some initialize was processed), the headers are already sent and
the call throws ERR_HTTP_HEADERS_SENT, so the session header is never
delivered on this path and the stream is aborted after the already-written
events instead of being ended cleanly.  The aborted flag records that
throw; header is none because no later header can reach the client. -/
def ssePathRun (g : Nat → String) (hdr : Option String) (msgs : List RpcMsg) : HandlerOut :=
  let r := ssePathGo g (hdrTruthy hdr) msgs 0 "" []
  { status := 200
    header := none
    responses := r.2.2.map (fun e => (some e.1, e.2))
    aborted := decide (r.2.1 ≠ "") }

/-- Single-JSON path of the src/server.ts handler (lines 405 to 431): scan
the batch and answer the first initialize, tools/list or tools/call
message, skipping everything else; an exhausted batch is the invalid
request error.  Here setHeader runs before the body is sent, so the
session header is delivered. -/
def jsonPathGo (g : Nat → String) (hdrT : Option String) : List RpcMsg → HandlerOut
  | [] =>
    ⟨200, none,
      [(none, .invalidReq "Invalid Request: expected JSON-RPC method (initialize, tools/list, tools/call)")],
      false⟩
  | m :: rest =>
    if m.method? = some "initialize" then
      ⟨200, some (freshSid hdrT g 0).1, [(none, .initRes m.id?)], false⟩
    else if m.method? = some "tools/list" then ⟨200, none, [(none, .toolsListRes m.id?)], false⟩
    else if m.method? = some "tools/call" then ⟨200, none, [(none, handleToolsCallS m)], false⟩
    else jsonPathGo g hdrT rest

/-- Embedding of the streamable-HTTP POST handler of src/server.ts lines 73
to 432: the notification-only gate answers 202 with no body, then the
Accept negotiation selects the stream or single-JSON path.  The body
normalization upstream of the gate (string parse, wrapper unwrap, array
wrap) is presumed done, so the input is the ordered message sequence. -/
def mcpPost (g : Nat → String) (accept : Option String) (hdr : Option String)
    (msgs : List RpcMsg) : HandlerOut :=
  let hasRequests := msgs.any (fun m => m.method?.isSome && m.id?.isSome)
  let hasOnlyNoReq := msgs.all (fun m => !m.method?.isSome || !m.id?.isSome)
  if hasOnlyNoReq = true ∧ hasRequests = false then ⟨202, none, [], false⟩
  else if acceptDecision accept = true then ssePathRun g hdr msgs
  else jsonPathGo g (hdrTruthy hdr) msgs

/-- A configured environment used by concrete runs below. -/
def envOK : Env := ⟨some "https://example", some "e@x", some "tok"⟩

/-- An environment with the API token unset. -/
def envNoTok : Env := ⟨some "https://example", some "e@x", none⟩

/-- Upstream with two pages: the first links to cursor c1, the second is
final; any other cursor fails. -/
def upTwoPages : String → FetchResult Nat := fun c =>
  if c = "" then
    .page { items := [1, 2],
            start? := some 0,
            limit? := some 2,
            size? := some 2,
            linksNext := some "/rest/api/search?cursor=c1" }
  else if c = "c1" then
    .page { items := [3, 4], size? := some 2 }
  else .fail 404 "" ""

/-- Upstream that always returns one item and a next cursor. -/
def upEndless : String → FetchResult Nat := fun _ =>
  .page { items := [0], linksNext := some "?cursor=n" }

/-- Upstream whose third page (cursor c2) fails with a 500. -/
def upFailThird : String → FetchResult Nat := fun c =>
  if c = "" then .page { items := [1], linksNext := some "?cursor=c1" }
  else if c = "c1" then .page { items := [2], linksNext := some "?cursor=c2" }
  else .fail 500 "boom" ""

/-- Baseline valid arguments for the label search. -/
def argsLabelSpace : SearchParams := { label := some "a", spaceKey := some "b" }

/-- A session id generator for concrete runs. -/
def genW : Nat → String := fun n => "s" ++ natRepr n

/-- An initialize request message with the given id. -/
def initMsg (i : Nat) : RpcMsg := { id? := some i, method? := some "initialize" }

/-- Label-search arguments with a budget of 21 items. -/
def args21 : SearchParams := { label := some "a", spaceKey := some "b", maxResults := some 21 }

/-- Label-search arguments with a budget of 2 items. -/
def args2 : SearchParams := { label := some "a", spaceKey := some "b", maxResults := some 2 }

/-- Label-search arguments with auto-pagination explicitly disabled but a
budget of 2 items. -/
def argsAutoBudget : SearchParams :=
  { label := some "a", spaceKey := some "b", maxResults := some 2, autoPaginate := some false }

/-- Label-search arguments with auto-pagination explicitly disabled and no
budget. -/
def argsAutoOff : SearchParams :=
  { label := some "a", spaceKey := some "b", autoPaginate := some false }

/-- Label-search arguments omitting the label. -/
def argsSpaceOnly : SearchParams := { spaceKey := some "b" }

/-- Upstream with a single final page. -/
def upSingle : String → FetchResult Nat := fun _ =>
  .page { items := [7], start? := some 0, limit? := some 50, size? := some 1 }

/-- A throwaway tool outcome used to fill the abstracted dispatcher slots
in concrete runs. -/
def oDummy : ToolOut Nat := .err "" "" []

/-- C2: for every Accept header, stream transport is selected iff the
event-stream quality strictly exceeds the JSON quality, with q defaulting
to 1, invalid q read as 1, absent event-stream as 0 and absent JSON as 1;
on equality, on an absent header and on a bare star-slash-star header the
single-JSON transport is selected. -/
theorem accept_negotiation_selects_stream_iff_strictly_preferred :
    (∀ h : Option String,
        acceptDecision h = true ↔
          QVal.lt (jsonQuality (h.getD "")) (sseQuality (h.getD "")) = true) ∧
    acceptDecision none = false ∧
    acceptDecision (some "*/*") = false ∧
    acceptDecision (some "application/json, text/event-stream") = false ∧
    acceptDecision (some "application/json;q=0.5, text/event-stream") = true ∧
    acceptDecision (some "text/event-stream;q=zzz") = false ∧
    acceptDecision (some "text/event-stream") = false := by
  refine ⟨fun h => ?_, by decide, by decide, by decide, by decide, by decide, by decide⟩
  simp [acceptDecision, wantsSse]

theorem cdiv_mul_ge {M L : Nat} (hL : 0 < L) (hM : 0 < M) : M ≤ cdiv M L * L := by
  unfold cdiv
  have h := Nat.div_add_mod (M + L - 1) L
  have hr : (M + L - 1) % L < L := Nat.mod_lt _ hL
  rw [Nat.mul_comm]
  generalize hx : L * ((M + L - 1) / L) = x at h ⊢
  omega

theorem mul_lt_of_lt_cdiv {M L k : Nat} (hL : 0 < L) (hk : k < cdiv M L) : k * L < M := by
  unfold cdiv at hk
  have h3 : (k + 1) * L ≤ M + L - 1 := (Nat.le_div_iff_mul_le hL).1 hk
  rw [Nat.succ_mul] at h3
  generalize hx : k * L = x at h3 ⊢
  omega

theorem cdiv_pos {M L : Nat} (hL : 0 < L) (hM : 0 < M) : 0 < cdiv M L := by
  unfold cdiv
  rw [Nat.lt_iff_add_one_le, Nat.le_div_iff_mul_le hL]
  omega

theorem aggLoop_succ {α : Type} (up : String → FetchResult α) (ap : Bool) (mx n : Nat)
    (acc : List α) (cur : String) (fp : Option (PageData α)) (pc : Nat) :
    aggLoop up ap mx (n + 1) acc cur fp pc =
      match up cur with
      | .fail st body stx => .fail st body stx
      | .page d =>
        if ap = true ∧ extractCursor d.linksNext ≠ "" ∧
            (mx = 0 ∨ (acc ++ d.items).length < mx) ∧ pc + 1 < 20 then
          aggLoop up ap mx n (acc ++ d.items) (extractCursor d.linksNext)
            (some (fp.getD d)) (pc + 1)
        else
          .done (acc ++ d.items) (extractCursor d.linksNext) (some (fp.getD d)) (pc + 1) := rfl

theorem aggLoop_full_pages {α : Type} (up : String → FetchResult α) (mx L : Nat)
    (hL : 0 < L) (hmx : 0 < mx) (hcap : cdiv mx L ≤ 20)
    (hup : ∀ c, ∃ d, up c = .page d ∧ d.items.length = L ∧ extractCursor d.linksNext ≠ "") :
    ∀ fuel acc cur fp pc, fuel + pc = 20 → acc.length = pc * L → pc < cdiv mx L →
      ∃ r c fp', aggLoop up true mx fuel acc cur fp pc = .done r c fp' (cdiv mx L) ∧
        r.length = cdiv mx L * L := by
  intro fuel
  induction fuel with
  | zero => intro acc cur fp pc hf hlen hpc; omega
  | succ n ih =>
    intro acc cur fp pc hf hlen hpc
    obtain ⟨d, hud, hdl, hnc⟩ := hup cur
    have hlen' : (acc ++ d.items).length = (pc + 1) * L := by
      rw [List.length_append, hlen, hdl]; ring
    rw [aggLoop_succ, hud]
    dsimp only
    by_cases hstop : pc + 1 < cdiv mx L
    · have hcont : (pc + 1) * L < mx := mul_lt_of_lt_cdiv hL hstop
      rw [if_pos ⟨rfl, hnc, Or.inr (by rw [hlen']; exact hcont), by omega⟩]
      exact ih _ _ _ _ (by omega) hlen' hstop
    · have heq : pc + 1 = cdiv mx L := by omega
      have hge : mx ≤ (acc ++ d.items).length := by
        rw [hlen', heq]; exact cdiv_mul_ge hL hmx
      rw [if_neg ?side]
      case side =>
        rintro ⟨-, -, h3, -⟩
        rcases h3 with h3 | h3
        · omega
        · omega
      exact ⟨_, _, _, by rw [heq], by rw [hlen', heq]⟩

theorem aggLoop_pages_le {α : Type} (up : String → FetchResult α) (ap : Bool) (mx : Nat) :
    ∀ fuel acc cur fp pc, fuel + pc ≤ 20 →
      ∀ r c fp' k, aggLoop up ap mx fuel acc cur fp pc = .done r c fp' k → k ≤ 20 := by
  intro fuel
  induction fuel with
  | zero =>
    intro acc cur fp pc hf r c fp' k h
    injection h with h1 h2 h3 h4
    omega
  | succ n ih =>
    intro acc cur fp pc hf r c fp' k h
    rw [aggLoop_succ] at h
    rcases hup : up cur with ⟨st, b, sx⟩ | ⟨d⟩
    · rw [hup] at h; exact absurd h (by simp)
    · rw [hup] at h
      dsimp only at h
      by_cases hc : ap = true ∧ extractCursor d.linksNext ≠ "" ∧
          (mx = 0 ∨ (acc ++ d.items).length < mx) ∧ pc + 1 < 20
      · rw [if_pos hc] at h
        exact ih _ _ _ _ (by omega) _ _ _ _ h
      · rw [if_neg hc] at h
        injection h with h1 h2 h3 h4
        omega

theorem effAuto_of_pos {p : SearchParams} (h : 0 < effMax p) : effAuto p = true := by
  unfold effAuto
  rw [Bool.or_eq_true]
  right
  simpa using h

/-- C1: the claim states that the returned pagination carries the cursors
of the LAST fetched page, so that resuming from the returned nextCursor
continues after everything already aggregated.  The code keeps the FIRST
fetched page and computes the returned cursors from it: on a two-page run
the aggregator returns all four items yet nextCursor is the first page's
cursor c1, the last fetched page has no next link at all, and resuming from
the returned cursor re-fetches items 3 and 4 — duplicates at the seam.
This contradicts the code's own more-results card text and the spec's
round-trip property, hence a code bug evaluated here at the failing
input. -/
theorem pagination_cursors_from_first_page_duplicate_on_resume :
    handleSearchByLabelInSpace envOK upTwoPages argsLabelSpace =
      .ok [1, 2, 3, 4]
        { start := some 0, limit := 2, size := 2, totalSize := none,
          nextCursor := some "c1", prevCursor := none } 2 ∧
    upTwoPages "c1" = .page { items := [3, 4], size? := some 2 } ∧
    cursorFromLink (PageData.linksNext ({ items := [3, 4], size? := some 2 } : PageData Nat)) =
      none ∧
    handleSearchByLabelInSpace envOK upTwoPages { argsLabelSpace with cursor := some "c1" } =
      .ok [3, 4]
        { start := none, limit := 50, size := 2, totalSize := none,
          nextCursor := none, prevCursor := none } 1 := by
  refine ⟨by decide, by decide, rfl, by decide⟩

/-- C3 counterexample: with page size 1 and budget 21 the claim promises
min of budget and available, that is 21 items from this unbounded upstream,
but the 20-page hard ceiling stops the loop first and only 20 items are
returned. -/
theorem budget_past_page_ceiling_underruns :
    (handleSearchByLabelInSpace envOK upEndless args21).pages? = some 20 ∧
    (handleSearchByLabelInSpace envOK upEndless args21).len? = some 20 ∧
    some (20 : Nat) ≠ some (effMax args21) := by
  refine ⟨by decide, by decide, by decide⟩

/-- C3 amended: for page size L at least 1, budget M positive with
ceil(M/L) within the 20-page ceiling, and an upstream every page of which
carries exactly L items and a next cursor, the aggregator fetches exactly
ceil(M/L) pages (hence at most ceil(M/L)) and returns exactly M items. -/
theorem aggregator_budget_fetches_ceil_pages (env : Env) (up : String → FetchResult Nat)
    (p : SearchParams) (L : Nat)
    (hcred : credsMissing env = false)
    (hlab : effLabel p ≠ "") (hsp : effSpaceKey p ≠ "")
    (hmx : 0 < effMax p) (hL : 0 < L) (hcap : cdiv (effMax p) L ≤ 20)
    (hup : ∀ c, ∃ d, up c = .page d ∧ d.items.length = L ∧ extractCursor d.linksNext ≠ "") :
    (handleSearchByLabelInSpace env up p).pages? = some (cdiv (effMax p) L) ∧
    (handleSearchByLabelInSpace env up p).len? = some (effMax p) := by
  have hap : effAuto p = true := effAuto_of_pos hmx
  obtain ⟨r, c, fp', hrun, hlen⟩ :=
    aggLoop_full_pages up (effMax p) L hL hmx hcap hup 20 [] (initialCursor p) none 0
      (by omega) (by simp) (cdiv_pos hL hmx)
  unfold handleSearchByLabelInSpace
  rw [if_neg (by simp [hcred])]
  dsimp only
  rw [if_neg (by push_neg; exact ⟨hlab, hsp⟩), hap, hrun]
  dsimp only
  rw [if_pos hmx]
  refine ⟨rfl, ?_⟩
  show some (r.take (effMax p)).length = some (effMax p)
  rw [List.length_take, hlen]
  exact congrArg some (Nat.min_eq_left (cdiv_mul_ge hL hmx))

/-- C3 witness: page size 1 and budget 2 against the endless upstream give
exactly 2 pages and 2 items. -/
theorem aggregator_budget_fetches_ceil_pages_witness :
    (handleSearchByLabelInSpace envOK upEndless args2).pages? = some 2 ∧
    (handleSearchByLabelInSpace envOK upEndless args2).len? = some 2 := by
  have h := aggregator_budget_fetches_ceil_pages envOK upEndless args2 1 (by decide) (by decide)
    (by decide) (by decide) (by decide) (by decide)
    (fun c => ⟨⟨[0], none, none, none, none, some "?cursor=n", none⟩, rfl, rfl, by decide⟩)
  rw [show cdiv (effMax args2) 1 = 2 from by decide] at h
  rw [show effMax args2 = 2 from by decide] at h
  exact h

/-- C4: over every upstream behavior and every argument object, a
successful aggregation fetched at most 20 pages, and when a nonzero result
budget is set the returned item list is no longer than the budget. -/
theorem aggregator_respects_page_ceiling_and_budget (env : Env)
    (up : String → FetchResult Nat) (p : SearchParams)
    (r : List Nat) (pg : PageMeta) (k : Nat)
    (h : handleSearchByLabelInSpace env up p = .ok r pg k) :
    k ≤ 20 ∧ (0 < effMax p → r.length ≤ effMax p) := by
  unfold handleSearchByLabelInSpace at h
  by_cases h1 : credsMissing env = true
  · rw [if_pos h1] at h; exact absurd h (by simp)
  · rw [if_neg h1] at h
    dsimp only at h
    by_cases h2 : effLabel p = "" ∨ effSpaceKey p = ""
    · rw [if_pos h2] at h; exact absurd h (by simp)
    · rw [if_neg h2] at h
      rcases hagg : aggLoop up (effAuto p) (effMax p) 20 [] (initialCursor p) none 0 with
        ⟨st, b, sx⟩ | ⟨col, lc, fp, pc⟩
      · rw [hagg] at h; exact absurd h (by simp)
      · rw [hagg] at h
        dsimp only at h
        injection h with hr hpg hk
        constructor
        · rw [← hk]
          exact aggLoop_pages_le up (effAuto p) (effMax p) 20 [] (initialCursor p) none 0
            (by omega) _ _ _ _ hagg
        · intro hpos
          rw [← hr, if_pos hpos, List.length_take]
          exact Nat.min_le_left _ _

/-- C4 witness: the two-page run fetched 2 pages, within the ceiling, and
its budget condition holds vacuously. -/
theorem aggregator_respects_page_ceiling_and_budget_witness :
    2 ≤ 20 ∧ (0 < effMax argsLabelSpace → ([1, 2, 3, 4] : List Nat).length ≤
      effMax argsLabelSpace) :=
  aggregator_respects_page_ceiling_and_budget envOK upTwoPages argsLabelSpace [1, 2, 3, 4]
    { start := some 0, limit := 2, size := 2, totalSize := none,
      nextCursor := some "c1", prevCursor := none } 2 (by decide)

/-- C5: whenever the aggregation loop meets a failing fetch the handler
returns the UPSTREAM_ERROR object carrying the HTTP status and the body
snippet and nothing else (first conjunct); in particular, when the first
two pages succeed and the third fetch fails, the two collected pages are
discarded and the upstream error is returned (second conjunct). -/
theorem upstream_failure_aborts_aggregation :
    (∀ (env : Env) (up : String → FetchResult Nat) (p : SearchParams) (st : Nat)
      (body stx : String),
      credsMissing env = false → effLabel p ≠ "" → effSpaceKey p ≠ "" →
      aggLoop up (effAuto p) (effMax p) 20 [] (initialCursor p) none 0 = .fail st body stx →
      handleSearchByLabelInSpace env up p =
        .err "UPSTREAM_ERROR" (upstreamErrMsg st body stx) []) ∧
    (∀ (env : Env) (up : String → FetchResult Nat) (p : SearchParams) (c1 c2 : String)
      (d0 d1 : PageData Nat) (st : Nat) (body stx : String),
      credsMissing env = false → effLabel p ≠ "" → effSpaceKey p ≠ "" →
      p.maxResults = none → p.autoPaginate ≠ some false →
      up (initialCursor p) = .page d0 → extractCursor d0.linksNext = c1 → c1 ≠ "" →
      up c1 = .page d1 → extractCursor d1.linksNext = c2 → c2 ≠ "" →
      up c2 = .fail st body stx →
      handleSearchByLabelInSpace env up p =
        .err "UPSTREAM_ERROR" (upstreamErrMsg st body stx) []) := by
  constructor
  · intro env up p st body stx hcred hlab hsp hagg
    unfold handleSearchByLabelInSpace
    rw [if_neg (by simp [hcred])]
    dsimp only
    rw [if_neg (by push_neg; exact ⟨hlab, hsp⟩), hagg]
  · intro env up p c1 c2 d0 d1 st body stx hcred hlab hsp hmaxn hapn h0 e0 n1 h1 e1 n2 h2
    have hmx : effMax p = 0 := by simp [effMax, hmaxn]
    have hap : effAuto p = true := by simp [effAuto, hapn]
    unfold handleSearchByLabelInSpace
    rw [if_neg (by simp [hcred])]
    dsimp only
    rw [if_neg (by push_neg; exact ⟨hlab, hsp⟩), hap, hmx]
    rw [show (20 : Nat) = 19 + 1 from rfl, aggLoop_succ, h0]
    dsimp only
    rw [e0, if_pos ⟨rfl, n1, Or.inl rfl, by omega⟩]
    rw [show (19 : Nat) = 18 + 1 from rfl, aggLoop_succ, h1]
    dsimp only
    rw [e1, if_pos ⟨rfl, n2, Or.inl rfl, by omega⟩]
    rw [show (18 : Nat) = 17 + 1 from rfl, aggLoop_succ, h2]

/-- C5 witness: two good pages then a 500 on cursor c2 yields exactly the
upstream-error object. -/
theorem upstream_failure_aborts_aggregation_witness :
    handleSearchByLabelInSpace envOK upFailThird argsLabelSpace =
      .err "UPSTREAM_ERROR" "Confluence API 500: boom" [] := by
  have h := upstream_failure_aborts_aggregation.2 envOK upFailThird argsLabelSpace "c1" "c2"
    ⟨[1], none, none, none, none, some "?cursor=c1", none⟩
    ⟨[2], none, none, none, none, some "?cursor=c2", none⟩ 500 "boom" ""
    (by decide) (by decide) (by decide) rfl (by decide)
    (by decide) (by decide) (by decide) (by decide) (by decide) (by decide) (by decide)
  exact h.trans (by decide)

/-- C6 counterexample: auto-pagination explicitly false together with a
budget of 2 still fetches 2 pages, because the source re-enables
auto-pagination whenever maxResults is positive; the claim promised exactly
one page regardless of the budget. -/
theorem auto_paginate_false_overridden_by_budget :
    (handleSearchByLabelInSpace envOK upEndless argsAutoBudget).pages? = some 2 ∧
    argsAutoBudget.autoPaginate = some false ∧
    some (2 : Nat) ≠ some 1 := by
  refine ⟨by decide, rfl, by decide⟩

/-- C6 amended: when auto-pagination is explicitly false AND no positive
result budget is set, exactly one page is fetched regardless of the next
cursor, and that page's items and metadata are returned. -/
theorem auto_paginate_false_without_budget_fetches_one_page (env : Env)
    (up : String → FetchResult Nat) (p : SearchParams) (d : PageData Nat)
    (hcred : credsMissing env = false)
    (hlab : effLabel p ≠ "") (hsp : effSpaceKey p ≠ "")
    (hap : p.autoPaginate = some false) (hmx : effMax p = 0)
    (hfetch : up (initialCursor p) = .page d) :
    handleSearchByLabelInSpace env up p =
      .ok d.items
        { start := d.start?
          limit := d.limit?.getD (effLimit p)
          size := d.size?.getD d.items.length
          totalSize := d.totalSize?
          nextCursor := cursorFromLink d.linksNext
          prevCursor := cursorFromLink d.linksPrev } 1 := by
  have hap' : effAuto p = false := by simp [effAuto, hap, hmx]
  unfold handleSearchByLabelInSpace
  rw [if_neg (by simp [hcred])]
  dsimp only
  rw [if_neg (by push_neg; exact ⟨hlab, hsp⟩), hap', hmx]
  rw [show (20 : Nat) = 19 + 1 from rfl, aggLoop_succ, hfetch]
  dsimp only
  rw [if_neg (by rintro ⟨hfalse, -⟩; exact absurd hfalse (by simp))]
  dsimp only
  rw [if_neg (by omega)]
  simp

/-- C6 witness: one final page with auto-pagination off returns that page
and a page count of one. -/
theorem auto_paginate_false_without_budget_fetches_one_page_witness :
    handleSearchByLabelInSpace envOK upSingle argsAutoOff =
      .ok [7]
        { start := some 0, limit := 50, size := 1, totalSize := none,
          nextCursor := none, prevCursor := none } 1 := by
  have h := auto_paginate_false_without_budget_fetches_one_page envOK upSingle argsAutoOff
    ⟨[7], some 0, some 50, some 1, none, none, none⟩ (by decide) (by decide) (by decide) rfl
    (by decide) rfl
  exact h.trans (by decide)

theorem hdrTruthy_ne_empty (h : Option String) : hdrTruthy h ≠ some "" := by
  unfold hdrTruthy
  cases h with
  | none => simp
  | some s =>
    by_cases hs : s = "" <;> simp [hs]

theorem freshSid_fst (hdrT : Option String) (g : Nat → String) (ctr : Nat) :
    (freshSid hdrT g ctr).1 = hdrT.getD (g ctr) := by
  cases hdrT <;> rfl

theorem freshSid_ne_empty (hdrT : Option String) (g : Nat → String) (ctr : Nat)
    (hh : hdrT ≠ some "") (hg : ∀ n, g n ≠ "") : (freshSid hdrT g ctr).1 ≠ "" := by
  cases hdrT with
  | none => exact hg ctr
  | some s =>
    intro he
    exact hh (by rw [show s = "" from he])

theorem ssePathGo_preserves_assigned (g : Nat → String) (hdrT : Option String) :
    ∀ (msgs : List RpcMsg) (ctr : Nat) (asg : String) (evs : List (String × RpcResp)),
      asg ≠ "" → (ssePathGo g hdrT msgs ctr asg evs).2.1 = asg := by
  intro msgs
  induction msgs with
  | nil => intro ctr asg evs ha; rfl
  | cons m rest ih =>
    intro ctr asg evs ha
    unfold ssePathGo
    by_cases h1 : m.method? = some "initialize"
    · rw [if_pos h1]
      dsimp only
      rw [if_neg ha]
      exact ih _ _ _ ha
    · rw [if_neg h1]
      by_cases h2 : m.method? = some "tools/list"
      · rw [if_pos h2]; exact ih _ _ _ ha
      · rw [if_neg h2]
        by_cases h3 : m.method? = some "tools/call"
        · rw [if_pos h3]; exact ih _ _ _ ha
        · rw [if_neg h3]
          by_cases h4 : idTruthy m.id? = true ∧ methodTruthy m.method? = true
          · rw [if_pos h4]; exact ih _ _ _ ha
          · rw [if_neg h4]; exact ih _ _ _ ha

theorem ssePathGo_allinit_bodies (g : Nat → String) (hdrT : Option String) :
    ∀ (msgs : List RpcMsg), (∀ m ∈ msgs, m.method? = some "initialize") →
      ∀ (ctr : Nat) (asg : String) (evs : List (String × RpcResp)),
        (ssePathGo g hdrT msgs ctr asg evs).2.2.map Prod.snd =
          evs.map Prod.snd ++ msgs.map (fun m => RpcResp.initRes m.id?) := by
  intro msgs
  induction msgs with
  | nil => intro h ctr asg evs; simp [ssePathGo]
  | cons m rest ih =>
    intro h ctr asg evs
    have hm : m.method? = some "initialize" := h m (by simp)
    have hrest : ∀ m' ∈ rest, m'.method? = some "initialize" := fun m' hm' => h m' (by simp [hm'])
    unfold ssePathGo
    rw [if_pos hm]
    dsimp only
    rw [ih hrest]
    simp

theorem ssePathGo_allinit_assigned (g : Nat → String) (hdrT : Option String)
    (hh : hdrT ≠ some "") (hg : ∀ n, g n ≠ "") :
    ∀ (m : RpcMsg) (rest : List RpcMsg), m.method? = some "initialize" →
      (∀ m' ∈ rest, m'.method? = some "initialize") →
      ∀ (ctr : Nat) (evs : List (String × RpcResp)),
        (ssePathGo g hdrT (m :: rest) ctr "" evs).2.1 = (freshSid hdrT g ctr).1 := by
  intro m rest hm hrest ctr evs
  unfold ssePathGo
  rw [if_pos hm]
  dsimp only
  rw [if_pos rfl]
  exact ssePathGo_preserves_assigned g hdrT rest _ _ _ (freshSid_ne_empty hdrT g ctr hh hg)

theorem genW_ne_empty : ∀ n, genW n ≠ "" := by
  intro n h
  have hd := congrArg String.data h
  simp only [genW, String.data_append] at hd
  exact absurd hd (by simp)

/-- C7 counterexample: on the single-JSON path a batch of two initialize
requests yields exactly one response, not one response per initialize
message as the claim states. -/
theorem json_path_answers_only_first_initialize :
    (mcpPost genW (some "") none [initMsg 1, initMsg 2]).responses.length = 1 ∧
    ([initMsg 1, initMsg 2].countP (fun m => m.method? == some "initialize")) = 2 ∧
    (mcpPost genW (some "") none [initMsg 1, initMsg 2]).responses.length ≠ 2 := by
  refine ⟨by decide, by decide, by decide⟩

/-- C7 amended: for a batch of initialize messages with at least one id,
the stream path emits one response event per initialize and the response
bodies are independent of the generated session ids (no echo inside
results), but NO session id reaches the Mcp-Session-Id header there: the
response head is flushed before the events, so the post-loop setHeader of
the assigned session throws after streaming (header none, aborted true);
on the single-JSON path only the first initialize is answered, and there
the header does carry its session id, set exactly once before the body is
sent. -/
theorem initialize_session_header_and_responses :
    (∀ (g : Nat → String) (accept hdr : Option String) (msgs : List RpcMsg),
      (∀ m ∈ msgs, m.method? = some "initialize") →
      (∃ m ∈ msgs, m.id?.isSome = true) →
      (∀ n, g n ≠ "") →
      acceptDecision accept = true →
      (mcpPost g accept hdr msgs).responses.length = msgs.length ∧
      (mcpPost g accept hdr msgs).header = none ∧
      (mcpPost g accept hdr msgs).aborted = true ∧
      ∀ g' : Nat → String,
        (mcpPost g' accept hdr msgs).responses.map Prod.snd =
          (mcpPost g accept hdr msgs).responses.map Prod.snd) ∧
    (∀ (g : Nat → String) (accept hdr : Option String) (m : RpcMsg) (rest : List RpcMsg),
      acceptDecision accept = false →
      m.method? = some "initialize" → m.id?.isSome = true →
      mcpPost g accept hdr (m :: rest) =
        ⟨200, some ((hdrTruthy hdr).getD (g 0)), [(none, .initRes m.id?)], false⟩) := by
  constructor
  · intro g accept hdr msgs hall hex hg hacc
    obtain ⟨m0, hm0, hid0⟩ := hex
    have hreq : msgs.any (fun m => m.method?.isSome && m.id?.isSome) = true :=
      List.any_eq_true.2 ⟨m0, hm0, by rw [hall m0 hm0]; simp [hid0]⟩
    have hgate : ¬(msgs.all (fun m => !m.method?.isSome || !m.id?.isSome) = true ∧
        msgs.any (fun m => m.method?.isSome && m.id?.isSome) = false) := by
      rintro ⟨-, h2⟩; rw [hreq] at h2; cases h2
    have hne : msgs ≠ [] := by rintro rfl; cases hm0
    obtain ⟨mh, mt, rfl⟩ : ∃ mh mt, msgs = mh :: mt := by
      cases msgs with
      | nil => exact absurd rfl hne
      | cons a b => exact ⟨a, b, rfl⟩
    have key : ∀ gg : Nat → String,
        (mcpPost gg accept hdr (mh :: mt)).responses.map Prod.snd =
          (mh :: mt).map (fun m => RpcResp.initRes m.id?) := by
      intro gg
      unfold mcpPost
      rw [if_neg hgate, if_pos hacc]
      unfold ssePathRun
      dsimp only
      rw [List.map_map]
      have hb := ssePathGo_allinit_bodies gg (hdrTruthy hdr) (mh :: mt) hall 0 "" []
      simpa using hb
    have hasg := ssePathGo_allinit_assigned g (hdrTruthy hdr) (hdrTruthy_ne_empty hdr) hg
      mh mt (hall mh (by simp)) (fun m' hm' => hall m' (by simp [hm'])) 0 []
    refine ⟨?_, ?_, ?_, fun g' => by rw [key g', key g]⟩
    · have h1 := congrArg List.length (key g)
      simpa using h1
    · unfold mcpPost
      rw [if_neg hgate, if_pos hacc]
      rfl
    · unfold mcpPost
      rw [if_neg hgate, if_pos hacc]
      unfold ssePathRun
      dsimp only
      rw [hasg]
      exact decide_eq_true (freshSid_ne_empty _ g 0 (hdrTruthy_ne_empty hdr) hg)
  · intro g accept hdr m rest hacc hm hid
    have hreq : (m :: rest).any (fun m => m.method?.isSome && m.id?.isSome) = true :=
      List.any_eq_true.2 ⟨m, by simp, by rw [hm]; simp [hid]⟩
    have hgate : ¬((m :: rest).all (fun m => !m.method?.isSome || !m.id?.isSome) = true ∧
        (m :: rest).any (fun m => m.method?.isSome && m.id?.isSome) = false) := by
      rintro ⟨-, h2⟩; rw [hreq] at h2; cases h2
    unfold mcpPost
    rw [if_neg hgate, if_neg (by rw [hacc]; simp)]
    unfold jsonPathGo
    rw [if_pos hm, freshSid_fst]

/-- C7 witness: a two-initialize batch over the stream transport gets two
response events but no session header (the stream is aborted by the late
setHeader), and a lone initialize on the JSON path is answered with header
s0. -/
theorem initialize_session_header_and_responses_witness :
    (mcpPost genW (some "text/event-stream;q=1, application/json;q=0.5") none
      [initMsg 1, initMsg 2]).responses.length = 2 ∧
    (mcpPost genW (some "text/event-stream;q=1, application/json;q=0.5") none
      [initMsg 1, initMsg 2]).header = none ∧
    (mcpPost genW (some "text/event-stream;q=1, application/json;q=0.5") none
      [initMsg 1, initMsg 2]).aborted = true ∧
    mcpPost genW (some "") none [initMsg 3] =
      ⟨200, some "s0", [(none, .initRes (some 3))], false⟩ := by
  have h1 := initialize_session_header_and_responses.1 genW
    (some "text/event-stream;q=1, application/json;q=0.5") none [initMsg 1, initMsg 2]
    (by decide) (by decide) genW_ne_empty (by decide)
  have h2 := initialize_session_header_and_responses.2 genW (some "") none (initMsg 3) []
    (by decide) (by decide) (by decide)
  exact ⟨by simpa using h1.1, h1.2.1, h1.2.2.1, h2.trans (by decide)⟩

/-- C8: a tools/call naming an unregistered tool is answered with the
JSON-RPC error code -32601 whose message embeds the supplied name
verbatim. -/
theorem unknown_tool_error_carries_verbatim_name (env : Env) (up : String → FetchResult Nat)
    (p : SearchParams) (o1 o2 o3 o4 o5 : ToolOut Nat) (id : Option Nat) (n : String)
    (hn : n ∉ (["search", "searchPages", "searchByLabelInSpace", "listSpaces",
      "listPagesInSpace", "listLabels", "describeTools"] : List String)) :
    mcp3Handler env up p o1 o2 o3 o4 o5 id (some "tools/call") (some n) =
      .rpcError id (-32601) ("Tool not found: " ++ n) ∧
    ∃ pre post : String, "Tool not found: " ++ n = pre ++ n ++ post := by
  simp only [List.mem_cons, List.not_mem_nil, or_false, not_or] at hn
  obtain ⟨h1, h2, h3, h4, h5, h6, h7⟩ := hn
  constructor
  · unfold mcp3Handler
    rw [if_neg (by decide), if_neg (by decide), if_neg (by decide), if_neg (by decide),
      if_pos (by decide)]
    unfold toolsCall3
    rw [if_neg (by simp [h1, h2]), if_neg (by simp [h3]), if_neg (by simp [h4]),
      if_neg (by simp [h5]), if_neg (by simp [h6]), if_neg (by simp [h7])]
    rfl
  · exact ⟨"Tool not found: ", "", by simp⟩

/-- C8 witness: the name doesNotExist produces the -32601 error carrying
that very name. -/
theorem unknown_tool_error_carries_verbatim_name_witness :
    mcp3Handler envOK upTwoPages argsLabelSpace oDummy oDummy oDummy oDummy oDummy (some 5)
      (some "tools/call") (some "doesNotExist") =
      .rpcError (some 5) (-32601) "Tool not found: doesNotExist" ∧
    ∃ pre post : String, "Tool not found: doesNotExist" = pre ++ "doesNotExist" ++ post := by
  have h := unknown_tool_error_carries_verbatim_name envOK upTwoPages argsLabelSpace oDummy
    oDummy oDummy oDummy oDummy (some 5) "doesNotExist" (by decide)
  refine ⟨h.1.trans (by decide), ?_⟩
  obtain ⟨pre, post, hp⟩ := h.2
  exact ⟨pre, post,
    (by decide : ("Tool not found: doesNotExist" : String) =
      "Tool not found: " ++ "doesNotExist").trans hp⟩

/-- C9: a tools/call for searchByLabelInSpace with a required argument
missing (label, spaceKey, or both) is answered with a successful result
envelope whose MISSING_INPUT payload enumerates exactly the omitted
names. -/
theorem missing_required_arguments_enumerated_in_result (env : Env)
    (up : String → FetchResult Nat) (p : SearchParams)
    (o1 o2 o3 o4 o5 : ToolOut Nat) (id : Option Nat)
    (hcred : credsMissing env = false) :
    (effLabel p = "" → effSpaceKey p ≠ "" →
      mcp3Handler env up p o1 o2 o3 o4 o5 id (some "tools/call") (some "searchByLabelInSpace") =
        .result id (.err "MISSING_INPUT" "Missing required input(s): label" ["label"])) ∧
    (effLabel p ≠ "" → effSpaceKey p = "" →
      mcp3Handler env up p o1 o2 o3 o4 o5 id (some "tools/call") (some "searchByLabelInSpace") =
        .result id (.err "MISSING_INPUT" "Missing required input(s): spaceKey" ["spaceKey"])) ∧
    (effLabel p = "" → effSpaceKey p = "" →
      mcp3Handler env up p o1 o2 o3 o4 o5 id (some "tools/call") (some "searchByLabelInSpace") =
        .result id (.err "MISSING_INPUT" "Missing required input(s): label, spaceKey"
          ["label", "spaceKey"])) := by
  have hroute : mcp3Handler env up p o1 o2 o3 o4 o5 id (some "tools/call")
      (some "searchByLabelInSpace") = .result id (handleSearchByLabelInSpace env up p) := by
    unfold mcp3Handler
    rw [if_neg (by decide), if_neg (by decide), if_neg (by decide), if_neg (by decide),
      if_pos (by decide)]
    unfold toolsCall3
    rw [if_neg (by decide), if_pos (by decide)]
  refine ⟨fun hl hs => ?_, fun hl hs => ?_, fun hl hs => ?_⟩ <;>
    rw [hroute] <;>
    · unfold handleSearchByLabelInSpace
      rw [if_neg (by simp [hcred])]
      dsimp only
      rw [if_pos (by tauto)]
      simp [hl, hs]
      try rfl

/-- C9 witness: omitting only the label yields the MISSING_INPUT result
naming label. -/
theorem missing_required_arguments_enumerated_in_result_witness :
    mcp3Handler envOK upTwoPages argsSpaceOnly oDummy oDummy oDummy oDummy oDummy (some 5)
      (some "tools/call") (some "searchByLabelInSpace") =
      .result (some 5) (.err "MISSING_INPUT" "Missing required input(s): label" ["label"]) :=
  (missing_required_arguments_enumerated_in_result envOK upTwoPages argsSpaceOnly oDummy oDummy
    oDummy oDummy oDummy (some 5) (by decide)).1 (by decide) (by decide)

/-- C10: with any of the three Confluence configuration values absent or
empty, each embedded handler returns the MISSING_CREDENTIALS error object
inside a successful tool result, and the outcome is independent of the
upstream collaborator, so no fetch influences it. -/
theorem missing_credentials_short_circuit :
    (∀ (env : Env) (up : String → FetchResult Nat) (p : SearchParams),
      credsMissing env = true →
      handleSearchByLabelInSpace env up p = .err "MISSING_CREDENTIALS" credsMsg []) ∧
    (∀ (env : Env) (up up' : String → FetchResult Nat) (p : SearchParams),
      credsMissing env = true →
      handleSearchByLabelInSpace env up p = handleSearchByLabelInSpace env up' p) ∧
    (∀ (env : Env) (f : FetchResult Nat) (p : SearchParams), credsMissing env = true →
      handleListSpaces env f p = .err "MISSING_CREDENTIALS" credsMsg) ∧
    (∀ (env : Env) (f f' : FetchResult Nat) (p : SearchParams), credsMissing env = true →
      handleListSpaces env f p = handleListSpaces env f' p) ∧
    (∀ (env : Env) (f : FetchResult Nat) (p : SearchParams), credsMissing env = true →
      handleSearchByLabelInSpaceV1 env f p = .err "MISSING_CREDENTIALS" credsMsg []) ∧
    (∀ (env : Env) (f f' : FetchResult Nat) (p : SearchParams), credsMissing env = true →
      handleSearchByLabelInSpaceV1 env f p = handleSearchByLabelInSpaceV1 env f' p) := by
  have hA : ∀ (env : Env) (up : String → FetchResult Nat) (p : SearchParams),
      credsMissing env = true →
      handleSearchByLabelInSpace env up p = .err "MISSING_CREDENTIALS" credsMsg [] := by
    intro env up p h
    unfold handleSearchByLabelInSpace
    rw [if_pos h]
  have hB : ∀ (env : Env) (f : FetchResult Nat) (p : SearchParams), credsMissing env = true →
      handleListSpaces env f p = .err "MISSING_CREDENTIALS" credsMsg := by
    intro env f p h
    unfold handleListSpaces
    rw [if_pos h]
  have hC : ∀ (env : Env) (f : FetchResult Nat) (p : SearchParams), credsMissing env = true →
      handleSearchByLabelInSpaceV1 env f p = .err "MISSING_CREDENTIALS" credsMsg [] := by
    intro env f p h
    unfold handleSearchByLabelInSpaceV1
    rw [if_pos h]
  exact ⟨hA, fun env up up' p h => by rw [hA env up p h, hA env up' p h],
    hB, fun env f f' p h => by rw [hB env f p h, hB env f' p h],
    hC, fun env f f' p h => by rw [hC env f p h, hC env f' p h]⟩

/-- C10 witness: with the API token unset all three embedded handlers
return the MISSING_CREDENTIALS object. -/
theorem missing_credentials_short_circuit_witness :
    handleSearchByLabelInSpace envNoTok upTwoPages argsLabelSpace =
      .err "MISSING_CREDENTIALS" credsMsg [] ∧
    handleListSpaces envNoTok (FetchResult.fail 500 "" "" : FetchResult Nat) argsLabelSpace =
      .err "MISSING_CREDENTIALS" credsMsg ∧
    handleSearchByLabelInSpaceV1 envNoTok (FetchResult.fail 500 "" "" : FetchResult Nat)
        argsLabelSpace =
      .err "MISSING_CREDENTIALS" credsMsg [] :=
  ⟨missing_credentials_short_circuit.1 envNoTok upTwoPages argsLabelSpace (by decide),
    missing_credentials_short_circuit.2.2.1 envNoTok (FetchResult.fail 500 "" "")
      argsLabelSpace (by decide),
    missing_credentials_short_circuit.2.2.2.2.1 envNoTok (FetchResult.fail 500 "" "")
      argsLabelSpace (by decide)⟩

